import Mathlib

/-!
Verification of the LexiNotes vocabulary-notebook application (src/app.py).

The Python source is shallowly embedded: strings are Lean `String`s, but all
character-level operations (`str.strip`, `str.lower`, `str.split`, substring
tests, lexicographic comparison) are re-implemented by structural recursion on
`String.data : List Char` so that every definition evaluates by kernel
reduction.  Python `dict`s (which preserve insertion order) are embedded as
association lists `List (String × α)` with the usual first-match lookup,
in-place update and key removal.  Python `list.remove` is `List.erase`
(both remove the first occurrence).  The wall clock (`datetime.now()`) is an
explicit parameter: `now : Int` is the whole-second Unix timestamp used for
note ids, `iso : String` the iso-format creation string.
-/

/-! ## Character-level string operations -/

/-- Drop leading whitespace characters (helper for Python `str.strip`). -/
def dropWhileWs : List Char → List Char
  | [] => []
  | c :: cs => if c.isWhitespace then dropWhileWs cs else c :: cs

/-- Python `str.strip()` on the underlying character list. -/
def trimChars (l : List Char) : List Char :=
  (dropWhileWs (dropWhileWs l.reverse).reverse)

/-- Python `str.strip()`. -/
def strTrim (s : String) : String :=
  ⟨trimChars s.data⟩

/-- Python `str.lower()` (ASCII case folding, as used by the app's data). -/
def lowerStr (s : String) : String :=
  ⟨s.data.map Char.toLower⟩

/-- Whitespace tokenizer: Python `str.split()` with no argument
(splits on runs of whitespace, returns no empty tokens).
The first argument accumulates the current token in reverse. -/
def wsTokensAux : List Char → List Char → List (List Char)
  | acc, [] => if acc.isEmpty then [] else [acc.reverse]
  | acc, c :: cs =>
    if c.isWhitespace then
      if acc.isEmpty then wsTokensAux [] cs
      else acc.reverse :: wsTokensAux [] cs
    else wsTokensAux (c :: acc) cs

/-- Python `str.split()`. -/
def wsTokens (l : List Char) : List (List Char) :=
  wsTokensAux [] l

/-- Python `" ".join(tokens)` on character lists. -/
def joinSpaces : List (List Char) → List Char
  | [] => []
  | [t] => t
  | t :: ts => t ++ ' ' :: joinSpaces ts

/-- Tag normalization of `add_word_tag`:
`" ".join(tag_text.lower().split())` — lower-case, trim, collapse internal
whitespace runs to single spaces. -/
def normalizeTag (s : String) : String :=
  ⟨joinSpaces (wsTokens (s.data.map Char.toLower))⟩

/-- Python `", ".join(tags)` used by the text export. -/
def joinComma : List String → String
  | [] => ""
  | [t] => t
  | t :: ts => t ++ ", " ++ joinComma ts

/-- Does `hay` start with `needle`? -/
def startsWithCh : List Char → List Char → Bool
  | _, [] => true
  | [], _ :: _ => false
  | h :: hs, n :: ns => h == n && startsWithCh hs ns

/-- Python `needle in hay` contiguous-substring test on character lists. -/
def hasSubstrCh (needle : List Char) : List Char → Bool
  | [] => needle.isEmpty
  | c :: cs => startsWithCh (c :: cs) needle || hasSubstrCh needle cs

/-- Python `needle in hay` for strings. -/
def strContains (hay needle : String) : Bool :=
  hasSubstrCh needle.data hay.data

/-- Strict lexicographic code-point comparison (Python `<` on strings). -/
def lexLt : List Char → List Char → Bool
  | [], [] => false
  | [], _ :: _ => true
  | _ :: _, [] => false
  | a :: as, b :: bs => decide (a < b) || (a == b && lexLt as bs)

/-- Non-strict lexicographic comparison on strings. -/
def strLe (a b : String) : Bool :=
  lexLt a.data b.data || a == b

/-- Insert a string into a (sorted) list, keeping ascending order. -/
def insertSorted (w : String) : List String → List String
  | [] => [w]
  | x :: xs => if strLe w x then w :: x :: xs else x :: insertSorted w xs

/-- Ascending insertion sort; on duplicate-free input this agrees with
Python's `sorted` under code-point order. -/
def sortStrings : List String → List String
  | [] => []
  | x :: xs => insertSorted x (sortStrings xs)

/-! ## Ordered dictionaries as association lists -/

/-- Python `d.get(k, dflt)`: value of the first (unique) matching key. -/
def getAssoc {α : Type} (l : List (String × α)) (k : String) (dflt : α) : α :=
  match l with
  | [] => dflt
  | p :: rest => if p.1 = k then p.2 else getAssoc rest k dflt

/-- Python `d[k] = v`: replace the value at an existing key in place,
or append a new key at the end (dicts preserve insertion order). -/
def setAssoc {α : Type} (k : String) (v : α) : List (String × α) → List (String × α)
  | [] => [(k, v)]
  | p :: rest => if p.1 = k then (k, v) :: rest else p :: setAssoc k v rest

/-- Python `d.pop(k, None)`: remove the key if present. -/
def popAssoc {α : Type} (k : String) : List (String × α) → List (String × α)
  | [] => []
  | p :: rest => if p.1 = k then rest else p :: popAssoc k rest

/-! ## Data model -/

/-- A note dict as created by the `notes` and `add_word_note` handlers. -/
structure Note where
  (id : Int) (text : String) (important : Bool) (created_at : String)
deriving DecidableEq, Repr

/-- The single JSON-backed application document (all six top-level keys). -/
structure Document where
  (favorites : List String)
  (pinned : List String)
  (history : List String)
  (general_notes : List Note)
  (word_notes : List (String × List Note))
  (word_tags : List (String × List String))
deriving DecidableEq, Repr

/-- The document created by `load_data` when no data file exists. -/
def empty_document : Document :=
  ⟨[], [], [], [], [], []⟩

/-- A stored JSON document: each top-level key may be missing (`none`). -/
structure StoredData where
  (favorites : Option (List String))
  (pinned : Option (List String))
  (history : Option (List String))
  (general_notes : Option (List Note))
  (word_notes : Option (List (String × List Note)))
  (word_tags : Option (List (String × List String)))
deriving DecidableEq, Repr

/-- `load_data` on an existing data file: parse, then back-fill the
`word_tags` key with `{}` if missing ("Backwards compatibility").
No other key is touched. -/
def load_data (s : StoredData) : StoredData :=
  if s.word_tags.isNone then { s with word_tags := some [] } else s

/-- `load_data`'s missing-file branch: a fresh document with all six keys. -/
def load_data_fresh : Document := empty_document

/-- All six top-level keys present in a stored document. -/
def allKeysPresent (s : StoredData) : Bool :=
  s.favorites.isSome && s.pinned.isSome && s.history.isSome &&
  s.general_notes.isSome && s.word_notes.isSome && s.word_tags.isSome

/-! ## Notebook Store operations -/

/-- `toggle_favorite`: remove the word if present (first occurrence,
Python `list.remove`), else append. -/
def toggle_favorite (word : String) (d : Document) : Document :=
  if word ∈ d.favorites then { d with favorites := d.favorites.erase word }
  else { d with favorites := d.favorites ++ [word] }

/-- `toggle_pin`: same contract on the independent `pinned` collection. -/
def toggle_pin (word : String) (d : Document) : Document :=
  if word ∈ d.pinned then { d with pinned := d.pinned.erase word }
  else { d with pinned := d.pinned ++ [word] }

/-- The history update inside `search`: remove the word if present,
then insert at index 0. -/
def record_search (word : String) (hist : List String) : List String :=
  word :: (if word ∈ hist then hist.erase word else hist)

/-- The POST branch of `notes`: trim, no-op on empty text, else append a
note with id `now` (Python `int(datetime.now().timestamp())`). -/
def add_general_note (now : Int) (iso : String) (text_raw : String)
    (imp : Bool) (d : Document) : Document :=
  let text := strTrim text_raw
  if text = "" then d
  else { d with general_notes := d.general_notes ++ [⟨now, text, imp, iso⟩] }

/-- `delete_general_note`: keep exactly the notes whose id differs. -/
def delete_general_note (note_id : Int) (d : Document) : Document :=
  { d with general_notes := d.general_notes.filter (fun n => decide (n.id ≠ note_id)) }

/-- `add_word_note`: same creation contract as a general note, appended to
`word_notes[word]` (creating the entry if absent). -/
def add_word_note (now : Int) (iso : String) (word text_raw : String)
    (imp : Bool) (d : Document) : Document :=
  let text := strTrim text_raw
  if text = "" then d
  else
    let notes := getAssoc d.word_notes word []
    { d with word_notes := setAssoc word (notes ++ [⟨now, text, imp, iso⟩]) d.word_notes }

/-- `delete_word_note`: filter out the matching id; if the remaining list is
empty the key is popped from the dict, otherwise it is reassigned. -/
def delete_word_note (word : String) (note_id : Int) (d : Document) : Document :=
  let notes := (getAssoc d.word_notes word []).filter (fun n => decide (n.id ≠ note_id))
  if notes.isEmpty then { d with word_notes := popAssoc word d.word_notes }
  else { d with word_notes := setAssoc word notes d.word_notes }

/-- `add_word_tag`: trim; no-op on empty; normalize; no-op if the normalized
tag is empty or already present; otherwise append it to the word's list. -/
def add_word_tag (word tag_raw : String) (d : Document) : Document :=
  let tag_text := strTrim tag_raw
  if tag_text = "" then d
  else
    let normalized := normalizeTag tag_text
    if normalized = "" then d
    else
      let tags := getAssoc d.word_tags word []
      if normalized ∈ tags then d
      else { d with word_tags := setAssoc word (tags ++ [normalized]) d.word_tags }

/-- `delete_history_item`: filter the word out of history. -/
def delete_history_item (word : String) (d : Document) : Document :=
  if word = "" then d
  else { d with history := d.history.filter (fun w => decide (w ≠ word)) }

/-- `clear_history`: reset history to empty. -/
def clear_history (d : Document) : Document :=
  { d with history := [] }

/-! ## Language table and the search page -/

/-- `LANGUAGE_OPTIONS`: (code, label) pairs, in source order. -/
def LANGUAGE_OPTIONS : List (String × String) :=
  [("en", "English"), ("hi", "Hindi"), ("sa", "Sanskrit"), ("ta", "Tamil"),
   ("es", "Spanish"), ("fr", "French"), ("de", "German"),
   ("all", "All languages (advanced)")]

/-- `DEFAULT_LANGUAGE`. -/
def DEFAULT_LANGUAGE : String := "en"

/-- The label scan shared by `search` and the word-of-day helpers:
first matching code's label, else the raw code. -/
def lang_label (language : String) : String :=
  match LANGUAGE_OPTIONS.find? (fun p => p.1 == language) with
  | some p => p.2
  | none => language

/-- The language resolution at the top of `search`'s GET branch:
trim, default when empty, downgrade `"all"` to the default language. -/
def resolve_language (language_raw : String) : String :=
  let lang1 := strTrim language_raw
  let lang2 := if lang1 = "" then DEFAULT_LANGUAGE else lang1
  if lang2 = "all" then DEFAULT_LANGUAGE else lang2

/-- One definition entry of a dictionary lookup result. -/
structure LookupDefinition where
  (part_of_speech : String) (definition : String)
  (language_code : Option String) (language_name : Option String)
deriving DecidableEq, Repr

/-- One translation entry of a dictionary lookup result. -/
structure LookupTranslation where
  (language_code : Option String) (language_name : Option String)
  (word : Option String)
deriving DecidableEq, Repr

/-- The normalized output of `get_word_info` when the lookup succeeds. -/
structure LookupResult where
  (word : String)
  (definitions : List LookupDefinition)
  (examples : List String)
  (synonyms : List String)
  (translations : List LookupTranslation)
  (source_url : Option String)
deriving DecidableEq, Repr

/-- The persisted side effects of `search`'s GET branch: guard on the trimmed
word, resolve the language, look up the word (result `info`, unused by the
mutation), move the word to the front of history, and append the lower-cased
language label to the word's tag list when not already present.  `save_data`
runs unconditionally at the end of this block. -/
def search_page_update (word_raw language_raw : String)
    (info : Option LookupResult) (d : Document) : Document :=
  let word := strTrim word_raw
  let language := resolve_language language_raw
  if word = "" then d
  else
    let _ := info
    let hist := record_search word d.history
    let auto_tag := lowerStr (lang_label language)
    let tags := getAssoc d.word_tags word []
    let wt :=
      if auto_tag ∈ tags then d.word_tags
      else setAssoc word (tags ++ [auto_tag]) d.word_tags
    { d with history := hist, word_tags := wt }

/-! ## Aggregation Engine -/

/-- `get_all_words`: sorted union of history, favourites, pinned, and the
key sets of `word_notes` and `word_tags`. -/
def get_all_words (d : Document) : List String :=
  sortStrings (List.dedup
    (d.history ++ d.favorites ++ d.pinned ++
     d.word_notes.map Prod.fst ++ d.word_tags.map Prod.fst))

/-- `get_all_tags`: sorted union of every word's tag list. -/
def get_all_tags (d : Document) : List String :=
  sortStrings (List.dedup (d.word_tags.flatMap Prod.snd))

/-- The four result groups computed by `search_all` for a non-empty query. -/
structure SearchResults where
  (words : List String)
  (general_notes : List Note)
  (word_notes : List (String × Note))
  (tags : List (String × String))
deriving DecidableEq, Repr

/-- `search_all`: `none` when the trimmed query is empty ("no results
computed"); otherwise the four case-insensitive substring match groups. -/
def search_all (query_raw : String) (d : Document) : Option SearchResults :=
  let query := strTrim query_raw
  if query = "" then none
  else
    let q := lowerStr query
    let word_candidates :=
      List.dedup (d.history ++ d.favorites ++ d.pinned ++
        d.word_notes.map Prod.fst ++ d.word_tags.map Prod.fst)
    let matching_words :=
      sortStrings (word_candidates.filter (fun w => strContains (lowerStr w) q))
    let general_note_matches :=
      d.general_notes.filter (fun n => strContains (lowerStr n.text) q)
    let word_note_matches :=
      d.word_notes.flatMap (fun p =>
        (p.2.filter (fun n => strContains (lowerStr n.text) q)).map (fun n => (p.1, n)))
    let tag_matches :=
      d.word_tags.flatMap (fun p =>
        (p.2.filter (fun t => strContains (lowerStr t) q)).map (fun t => (p.1, t)))
    some ⟨matching_words, general_note_matches, word_note_matches, tag_matches⟩

/-! ## Text export -/

/-- A general-note line: `  - [IMPORTANT] text` or `  - text`. -/
def general_note_line (n : Note) : String :=
  "  - " ++ (if n.important then "[IMPORTANT] " else "") ++ n.text

/-- The block of lines for one word's notes: header then one line per note. -/
def word_note_block (p : String × List Note) : List String :=
  ("  " ++ p.1 ++ ":") ::
    p.2.map (fun n => "    - " ++ (if n.important then "[IMPORTANT] " else "") ++ n.text)

/-- The line for one word's tags, or nothing when the tag list is empty. -/
def word_tag_line (p : String × List String) : Option String :=
  if p.2.isEmpty then none else some ("  " ++ p.1 ++ ": " ++ joinComma p.2)

/-- `export_text`: the flattened backup report, as the ordered list of lines
appended by the route. -/
def export_text (d : Document) : List String :=
  ["LexiNotes backup", "================", ""] ++
  ("FAVOURITES:" :: d.favorites.map (fun w => "  - " ++ w)) ++
  ("" :: "PINNED:" :: d.pinned.map (fun w => "  - " ++ w)) ++
  ("" :: "HISTORY:" :: d.history.map (fun w => "  - " ++ w)) ++
  ("" :: "GENERAL NOTES:" :: d.general_notes.map general_note_line) ++
  ("" :: "WORD NOTES:" :: d.word_notes.flatMap word_note_block) ++
  ("" :: "WORD TAGS:" :: d.word_tags.filterMap word_tag_line)

/-- The fixed report header. -/
def export_header : List String := ["LexiNotes backup", "================", ""]

/-- Section 1: favourites. -/
def favourites_section (d : Document) : List String :=
  "FAVOURITES:" :: d.favorites.map (fun w => "  - " ++ w)

/-- Section 2: pinned. -/
def pinned_section (d : Document) : List String :=
  "PINNED:" :: d.pinned.map (fun w => "  - " ++ w)

/-- Section 3: history. -/
def history_section (d : Document) : List String :=
  "HISTORY:" :: d.history.map (fun w => "  - " ++ w)

/-- Section 4: general notes, importance-marked. -/
def general_notes_section (d : Document) : List String :=
  "GENERAL NOTES:" :: d.general_notes.map general_note_line

/-- Section 5: word notes, grouped by word. -/
def word_notes_section (d : Document) : List String :=
  "WORD NOTES:" :: d.word_notes.flatMap word_note_block

/-- Section 6: word tags, one line per word with a non-empty tag list. -/
def word_tags_section (d : Document) : List String :=
  "WORD TAGS:" :: d.word_tags.filterMap word_tag_line

/-! ## Helper lemmas -/

theorem mem_insertSorted (w a : String) (l : List String) :
    a ∈ insertSorted w l ↔ a = w ∨ a ∈ l := by
  induction l with
  | nil => simp [insertSorted]
  | cons x xs ih =>
    simp only [insertSorted]
    split
    · simp
    · simp [ih]
      tauto

theorem mem_sortStrings (a : String) (l : List String) :
    a ∈ sortStrings l ↔ a ∈ l := by
  induction l with
  | nil => simp [sortStrings]
  | cons x xs ih => simp [sortStrings, mem_insertSorted, ih]

theorem getAssoc_setAssoc_self {α : Type} (k : String) (v : α) (dflt : α)
    (l : List (String × α)) : getAssoc (setAssoc k v l) k dflt = v := by
  induction l with
  | nil => simp [setAssoc, getAssoc]
  | cons p rest ih =>
    by_cases hp : p.1 = k
    · simp [setAssoc, getAssoc, hp]
    · simp [setAssoc, getAssoc, hp, ih]

theorem not_mem_keys_popAssoc {α : Type} (k : String) (l : List (String × α))
    (hnd : (l.map Prod.fst).Nodup) : k ∉ (popAssoc k l).map Prod.fst := by
  induction l with
  | nil => simp [popAssoc]
  | cons p rest ih =>
    simp only [List.map_cons, List.nodup_cons] at hnd
    by_cases hp : p.1 = k
    · simpa [popAssoc, hp] using fun hk => hnd.1 (hp ▸ hk)
    · simpa [popAssoc, hp, Ne.symm hp] using ih hnd.2

theorem getAssoc_eq_of_not_key {α : Type} (k : String) (dflt : α)
    (l : List (String × α)) (hk : k ∉ l.map Prod.fst) :
    getAssoc l k dflt = dflt := by
  induction l with
  | nil => rfl
  | cons p rest ih =>
    simp only [List.map_cons, List.mem_cons] at hk
    push_neg at hk
    simp [getAssoc, Ne.symm hk.1, ih hk.2]

/-! ## Claim C1 -/

/-- Claim C1 (amended): on a duplicate-free favorites list, a double
`toggle_favorite w` restores the favorites content: the result is a
permutation of the original list, and is the original list exactly when `w`
was absent; when `w` was present at any position the double toggle moves `w`
to the end (`erase w ++ [w]`), so the original order is generally not
restored.  A single application removes `w` if present and appends it
otherwise. -/
theorem toggle_favorite_twice_perm (d : Document) (w : String)
    (hnd : d.favorites.Nodup) :
    ((toggle_favorite w (toggle_favorite w d)).favorites).Perm d.favorites ∧
    (w ∉ d.favorites → toggle_favorite w (toggle_favorite w d) = d) ∧
    (w ∈ d.favorites →
      (toggle_favorite w (toggle_favorite w d)).favorites = d.favorites.erase w ++ [w]) ∧
    (w ∈ d.favorites → (toggle_favorite w d).favorites = d.favorites.erase w) ∧
    (w ∉ d.favorites → (toggle_favorite w d).favorites = d.favorites ++ [w]) := by
  by_cases hw : w ∈ d.favorites
  · have h1 : toggle_favorite w d = { d with favorites := d.favorites.erase w } := by
      simp [toggle_favorite, hw]
    have hw2 : w ∉ (toggle_favorite w d).favorites := by
      rw [h1]; exact hnd.not_mem_erase
    have h2 : (toggle_favorite w (toggle_favorite w d)).favorites
        = d.favorites.erase w ++ [w] := by
      rw [toggle_favorite, if_neg hw2, h1]
    refine ⟨?_, fun h => absurd hw h, fun _ => h2, fun _ => by rw [h1], fun h => absurd hw h⟩
    rw [h2]
    exact (List.perm_append_singleton w _).trans (List.perm_cons_erase hw).symm
  · have h1 : toggle_favorite w d = { d with favorites := d.favorites ++ [w] } := by
      simp [toggle_favorite, hw]
    have hw2 : w ∈ (toggle_favorite w d).favorites := by
      rw [h1]; exact List.mem_append_right _ (List.mem_singleton_self w)
    have h2 : toggle_favorite w (toggle_favorite w d) = d := by
      rw [toggle_favorite, if_pos hw2, h1]
      have he : (d.favorites ++ [w]).erase w = d.favorites := by
        rw [List.erase_append_right _ hw]
        simp
      simp [he]
    exact ⟨by rw [h2], fun _ => h2, fun h => absurd h hw, fun h => absurd h hw,
      fun _ => by rw [h1]⟩

/-- Witness for C1 at a concrete input. -/
theorem toggle_favorite_twice_perm_witness :
    toggle_favorite "b" (toggle_favorite "b" ⟨["a"], [], [], [], [], []⟩)
      = ⟨["a"], [], [], [], [], []⟩ :=
  (toggle_favorite_twice_perm ⟨["a"], [], [], [], [], []⟩ "b" (by decide)).2.1 (by decide)

/-- Counterexample for C1 as stated: favorites `["a", "b"]`, toggling `"a"`
twice yields `["b", "a"]`, not the original order. -/
theorem toggle_favorite_twice_counterexample :
    (toggle_favorite "a" (toggle_favorite "a" ⟨["a", "b"], [], [], [], [], []⟩)).favorites
      ≠ (⟨["a", "b"], [], [], [], [], []⟩ : Document).favorites := by
  decide

/-! ## Claim C5 -/

/-- Claim C5: `record_search w` (the history update of `search`) removes `w`
if present then inserts it at index 0; recording the same word twice equals
recording it once, and on a duplicate-free history the result has `w` at
index 0, exactly one occurrence of `w`, and no duplicates — so the invariant
is preserved across any sequence of searches. -/
theorem record_search_spec (hist : List String) (w : String) :
    record_search w (record_search w hist) = record_search w hist ∧
    (hist.Nodup →
      (record_search w hist).head? = some w ∧
      (record_search w hist).count w = 1 ∧
      (record_search w hist).Nodup) := by
  constructor
  · simp [record_search]
  · intro hnd
    refine ⟨rfl, ?_, ?_⟩
    · by_cases hw : w ∈ hist
      · simp [record_search, hw, List.count_cons_self,
          List.count_eq_zero.mpr hnd.not_mem_erase]
      · simp [record_search, hw, List.count_cons_self, List.count_eq_zero.mpr hw]
    · by_cases hw : w ∈ hist
      · simp only [record_search, if_pos hw]
        exact List.nodup_cons.mpr ⟨hnd.not_mem_erase, hnd.erase w⟩
      · simp only [record_search, if_neg hw]
        exact List.nodup_cons.mpr ⟨hw, hnd⟩

/-- Witness for C5 at a concrete input. -/
theorem record_search_spec_witness :
    record_search "x" (record_search "x" ["y", "x", "z"]) = record_search "x" ["y", "x", "z"] ∧
    (record_search "x" ["y", "x", "z"]).head? = some "x" ∧
    (record_search "x" ["y", "x", "z"]).count "x" = 1 ∧
    (record_search "x" ["y", "x", "z"]).Nodup :=
  ⟨(record_search_spec ["y", "x", "z"] "x").1,
   (record_search_spec ["y", "x", "z"] "x").2 (by decide)⟩

/-! ## Claim C10 -/

/-- Claim C10: `delete_general_note id` removes exactly the general notes
with the matching id, keeps every other general note, is the identity when no
note has that id, and leaves every other field of the document unchanged. -/
theorem delete_general_note_spec (d : Document) (note_id : Int) :
    (delete_general_note note_id d).favorites = d.favorites ∧
    (delete_general_note note_id d).pinned = d.pinned ∧
    (delete_general_note note_id d).history = d.history ∧
    (delete_general_note note_id d).word_notes = d.word_notes ∧
    (delete_general_note note_id d).word_tags = d.word_tags ∧
    (∀ n ∈ (delete_general_note note_id d).general_notes, n.id ≠ note_id) ∧
    (∀ n ∈ d.general_notes, n.id ≠ note_id →
      n ∈ (delete_general_note note_id d).general_notes) ∧
    ((∀ n ∈ d.general_notes, n.id ≠ note_id) → delete_general_note note_id d = d) := by
  refine ⟨rfl, rfl, rfl, rfl, rfl, ?_, ?_, ?_⟩
  · intro n hn
    have := (List.mem_filter.mp hn).2
    simpa using this
  · intro n hn hid
    exact List.mem_filter.mpr ⟨hn, by simpa using hid⟩
  · intro hall
    have hfix : d.general_notes.filter (fun n => decide (n.id ≠ note_id))
        = d.general_notes :=
      List.filter_eq_self.mpr (fun n hn => by simpa using hall n hn)
    show { d with general_notes := _ } = d
    rw [hfix]

/-- Witness for C10: the spec's end-to-end example — start empty, add a word
note for "karma", then `delete_general_note 999` is a no-op and the word note
survives. -/
theorem delete_general_note_spec_witness :
    delete_general_note 999
        (add_word_note 1700000000 "2023-11-14T22:13:20" "karma" "check spelling" true
          empty_document)
      = add_word_note 1700000000 "2023-11-14T22:13:20" "karma" "check spelling" true
          empty_document ∧
    (add_word_note 1700000000 "2023-11-14T22:13:20" "karma" "check spelling" true
        empty_document).general_notes = [] ∧
    (add_word_note 1700000000 "2023-11-14T22:13:20" "karma" "check spelling" true
        empty_document).word_notes
      = [("karma", [⟨1700000000, "check spelling", true, "2023-11-14T22:13:20"⟩])] :=
  ⟨(delete_general_note_spec _ 999).2.2.2.2.2.2.2 (by decide), by decide, by decide⟩

/-! ## Claim C2 -/

/-- Counterexample for C2 as stated: a stored document missing every key is
returned by `load_data` still missing `favorites` (and the other four
non-`word_tags` keys); only `word_tags` is back-filled. -/
theorem load_data_counterexample :
    allKeysPresent (load_data ⟨none, none, none, none, none, none⟩) = false ∧
    (load_data ⟨none, none, none, none, none, none⟩).favorites = none := by
  decide

/-- Claim C2 (amended): `load_data` on an existing stored document back-fills
only the `word_tags` key (with the empty default) and never errors; the other
five top-level keys are returned exactly as stored, so a key other than
`word_tags` that is missing from the stored document stays missing.  A fully
fresh document with all six keys is created only when no data file exists. -/
theorem load_data_backfills_word_tags (s : StoredData) :
    (load_data s).word_tags = some (s.word_tags.getD []) ∧
    (load_data s).word_tags.isSome = true ∧
    (load_data s).favorites = s.favorites ∧
    (load_data s).pinned = s.pinned ∧
    (load_data s).history = s.history ∧
    (load_data s).general_notes = s.general_notes ∧
    (load_data s).word_notes = s.word_notes ∧
    (s.word_tags.isSome = true → load_data s = s) ∧
    load_data_fresh = (⟨[], [], [], [], [], []⟩ : Document) := by
  cases h : s.word_tags with
  | none => simp [load_data, h, load_data_fresh, empty_document]
  | some v => simp [load_data, h, load_data_fresh, empty_document]

/-- Witness for C2 at a concrete input. -/
theorem load_data_backfills_word_tags_witness :
    load_data ⟨some [], some [], some [], some [], some [], some [("w", ["t"])]⟩
      = ⟨some [], some [], some [], some [], some [], some [("w", ["t"])]⟩ :=
  (load_data_backfills_word_tags
    ⟨some [], some [], some [], some [], some [], some [("w", ["t"])]⟩).2.2.2.2.2.2.2.1
    (by decide)

/-! ## Claim C3 -/

/-- Counterexample for C3 as stated: two general notes created within the
same clock second (`int(datetime.now().timestamp())` = 100 both times)
receive the same id, so ids are not unique across the collection at creation
time. -/
theorem note_id_unique_counterexample :
    ¬ (((add_general_note 100 "t1" "b" false
          (add_general_note 100 "t0" "a" false empty_document)).general_notes.map
            Note.id).Nodup) := by
  decide

/-- Claim C3 (amended): a created general or word note receives id equal to
the whole-second timestamp `now` at creation; the id is unique across its
collection at creation time only under the extra assumption that `now`
differs from every id already in that collection (creations in distinct
seconds) — the code performs no uniqueness check of its own. -/
theorem note_id_unique_of_fresh_timestamp (d : Document) (now : Int)
    (iso text : String) (imp : Bool) (word : String)
    (htext : strTrim text ≠ "") :
    ((add_general_note now iso text imp d).general_notes.map Note.id
        = d.general_notes.map Note.id ++ [now]) ∧
    (now ∉ d.general_notes.map Note.id → (d.general_notes.map Note.id).Nodup →
      ((add_general_note now iso text imp d).general_notes.map Note.id).Nodup) ∧
    ((getAssoc (add_word_note now iso word text imp d).word_notes word []).map Note.id
        = (getAssoc d.word_notes word []).map Note.id ++ [now]) ∧
    (now ∉ (getAssoc d.word_notes word []).map Note.id →
      ((getAssoc d.word_notes word []).map Note.id).Nodup →
      ((getAssoc (add_word_note now iso word text imp d).word_notes word []).map
        Note.id).Nodup) := by
  have hgen : (add_general_note now iso text imp d).general_notes
      = d.general_notes ++ [⟨now, strTrim text, imp, iso⟩] := by
    rw [add_general_note]
    simp [htext]
  have hword : getAssoc (add_word_note now iso word text imp d).word_notes word []
      = getAssoc d.word_notes word [] ++ [⟨now, strTrim text, imp, iso⟩] := by
    simp [add_word_note, htext, getAssoc_setAssoc_self]
  refine ⟨?_, ?_, ?_, ?_⟩
  · simp [hgen]
  · intro hfresh hnd
    simp only [hgen, List.map_append, List.map_cons, List.map_nil]
    refine List.Nodup.append hnd (List.nodup_singleton now) ?_
    intro a ha hb
    rw [List.mem_singleton] at hb
    subst hb
    exact hfresh ha
  · simp [hword]
  · intro hfresh hnd
    simp only [hword, List.map_append, List.map_cons, List.map_nil]
    refine List.Nodup.append hnd (List.nodup_singleton now) ?_
    intro a ha hb
    rw [List.mem_singleton] at hb
    subst hb
    exact hfresh ha

/-- Witness for C3 at a concrete input. -/
theorem note_id_unique_of_fresh_timestamp_witness :
    ((add_general_note 101 "t1" "b" false
        (add_general_note 100 "t0" "a" false empty_document)).general_notes.map
          Note.id).Nodup :=
  (note_id_unique_of_fresh_timestamp
    (add_general_note 100 "t0" "a" false empty_document) 101 "t1" "b" false "w"
    (by decide)).2.1 (by decide) (by decide)

/-! ## Claim C7 -/


/-- Claim C7: `add_word_tag` stores only the normalized tag (trimmed,
lower-cased, internal whitespace collapsed), is a silent no-op when the
normalized form is empty or already present for the word, changes no other
field, and in particular adding `"  Hindi   Notes "` then `"hindi notes"` to
the same word stores exactly the one tag `"hindi notes"`. -/
theorem add_word_tag_spec (d : Document) (word traw : String) :
    (normalizeTag (strTrim traw) = "" → add_word_tag word traw d = d) ∧
    (normalizeTag (strTrim traw) ∈ getAssoc d.word_tags word [] →
      add_word_tag word traw d = d) ∧
    (normalizeTag (strTrim traw) ≠ "" →
      normalizeTag (strTrim traw) ∉ getAssoc d.word_tags word [] →
      (add_word_tag word traw d).word_tags
          = setAssoc word
              (getAssoc d.word_tags word [] ++ [normalizeTag (strTrim traw)])
              d.word_tags ∧
      getAssoc (add_word_tag word traw d).word_tags word []
          = getAssoc d.word_tags word [] ++ [normalizeTag (strTrim traw)]) ∧
    (add_word_tag word traw d).favorites = d.favorites ∧
    (add_word_tag word traw d).pinned = d.pinned ∧
    (add_word_tag word traw d).history = d.history ∧
    (add_word_tag word traw d).general_notes = d.general_notes ∧
    (add_word_tag word traw d).word_notes = d.word_notes ∧
    (add_word_tag "w" "hindi notes"
        (add_word_tag "w" "  Hindi   Notes " empty_document)).word_tags
      = [("w", ["hindi notes"])] := by
  refine ⟨?_, ?_, ?_, ?_, ?_, ?_, ?_, ?_, by decide⟩
  · intro h2
    by_cases h1 : strTrim traw = ""
    · simp [add_word_tag, h1]
    · simp [add_word_tag, h1, h2]
  · intro h3
    by_cases h1 : strTrim traw = ""
    · simp [add_word_tag, h1]
    · by_cases h2 : normalizeTag (strTrim traw) = ""
      · simp [add_word_tag, h1, h2]
      · simp [add_word_tag, h1, h2, h3]
  · intro h2 h3
    have h1 : strTrim traw ≠ "" := fun h0 => h2 (by rw [h0]; rfl)
    constructor
    · simp [add_word_tag, h1, h2, h3]
    · simp [add_word_tag, h1, h2, h3, getAssoc_setAssoc_self]
  all_goals
    simp only [add_word_tag]
    repeat' split
    all_goals rfl

/-- Witness for C7 at a concrete input. -/
theorem add_word_tag_spec_witness :
    (add_word_tag "karma" " Study  WORD " empty_document).word_tags
      = setAssoc "karma"
          (getAssoc empty_document.word_tags "karma" []
            ++ [normalizeTag (strTrim " Study  WORD ")])
          empty_document.word_tags :=
  ((add_word_tag_spec empty_document "karma" " Study  WORD ").2.2.1
    (by decide) (by decide)).1

/-! ## Claim C6 -/

/-- Claim C6: `delete_word_note` removes the matching note from the word's
list; when the remaining list is empty the word's key is removed from
`word_notes` entirely, and the word is then known to `get_all_words` only if
it also occurs in history, favorites, pinned, or as a `word_tags` key.  All
fields other than `word_notes` are unchanged. -/
theorem delete_word_note_spec (d : Document) (word : String) (note_id : Int)
    (hnd : (d.word_notes.map Prod.fst).Nodup) :
    (∀ n ∈ getAssoc (delete_word_note word note_id d).word_notes word [],
      n.id ≠ note_id) ∧
    (((getAssoc d.word_notes word []).filter
        (fun n => decide (n.id ≠ note_id))).isEmpty = true →
      word ∉ (delete_word_note word note_id d).word_notes.map Prod.fst) ∧
    (((getAssoc d.word_notes word []).filter
        (fun n => decide (n.id ≠ note_id))).isEmpty = true →
      (word ∈ get_all_words (delete_word_note word note_id d) ↔
        word ∈ d.history ∨ word ∈ d.favorites ∨ word ∈ d.pinned ∨
          word ∈ d.word_tags.map Prod.fst)) ∧
    (delete_word_note word note_id d).favorites = d.favorites ∧
    (delete_word_note word note_id d).pinned = d.pinned ∧
    (delete_word_note word note_id d).history = d.history ∧
    (delete_word_note word note_id d).general_notes = d.general_notes ∧
    (delete_word_note word note_id d).word_tags = d.word_tags := by
  have hframe : (delete_word_note word note_id d).favorites = d.favorites ∧
      (delete_word_note word note_id d).pinned = d.pinned ∧
      (delete_word_note word note_id d).history = d.history ∧
      (delete_word_note word note_id d).general_notes = d.general_notes ∧
      (delete_word_note word note_id d).word_tags = d.word_tags := by
    simp only [delete_word_note]
    split <;> exact ⟨rfl, rfl, rfl, rfl, rfl⟩
  by_cases hemp : ((getAssoc d.word_notes word []).filter
      (fun n => decide (n.id ≠ note_id))).isEmpty = true
  · have hdel : (delete_word_note word note_id d).word_notes
        = popAssoc word d.word_notes := by
      simp only [delete_word_note]
      rw [if_pos hemp]
    have hkey : word ∉ (delete_word_note word note_id d).word_notes.map Prod.fst := by
      rw [hdel]; exact not_mem_keys_popAssoc word d.word_notes hnd
    refine ⟨?_, fun _ => hkey, fun _ => ?_,
      hframe.1, hframe.2.1, hframe.2.2.1, hframe.2.2.2.1, hframe.2.2.2.2⟩
    · intro n hn
      rw [getAssoc_eq_of_not_key word [] _ hkey] at hn
      exact absurd hn (List.not_mem_nil n)
    · rw [get_all_words, mem_sortStrings, List.mem_dedup]
      rw [hframe.2.2.1, hframe.1, hframe.2.1, hframe.2.2.2.2]
      simp only [List.mem_append]
      constructor
      · rintro ((((h | h) | h) | h) | h)
        · exact Or.inl h
        · exact Or.inr (Or.inl h)
        · exact Or.inr (Or.inr (Or.inl h))
        · exact absurd h hkey
        · exact Or.inr (Or.inr (Or.inr h))
      · rintro (h | h | h | h)
        · exact Or.inl (Or.inl (Or.inl (Or.inl h)))
        · exact Or.inl (Or.inl (Or.inl (Or.inr h)))
        · exact Or.inl (Or.inl (Or.inr h))
        · exact Or.inr h
  · have hdel : (delete_word_note word note_id d).word_notes
        = setAssoc word ((getAssoc d.word_notes word []).filter
            (fun n => decide (n.id ≠ note_id))) d.word_notes := by
      simp only [delete_word_note]
      rw [if_neg hemp]
    refine ⟨?_, fun h => absurd h hemp, fun h => absurd h hemp,
      hframe.1, hframe.2.1, hframe.2.2.1, hframe.2.2.2.1, hframe.2.2.2.2⟩
    intro n hn
    rw [hdel, getAssoc_setAssoc_self] at hn
    have := (List.mem_filter.mp hn).2
    simpa using this

/-- Witness for C6 at a concrete input: deleting the only note of "karma"
removes the key and the word drops out of `get_all_words`. -/
theorem delete_word_note_spec_witness :
    ("karma" ∈ get_all_words (delete_word_note "karma" 100
        ⟨[], [], [], [], [("karma", [⟨100, "x", false, "t"⟩])], []⟩) ↔
      "karma" ∈ (⟨[], [], [], [], [("karma", [⟨100, "x", false, "t"⟩])], []⟩ :
          Document).history ∨
      "karma" ∈ (⟨[], [], [], [], [("karma", [⟨100, "x", false, "t"⟩])], []⟩ :
          Document).favorites ∨
      "karma" ∈ (⟨[], [], [], [], [("karma", [⟨100, "x", false, "t"⟩])], []⟩ :
          Document).pinned ∨
      "karma" ∈ (⟨[], [], [], [], [("karma", [⟨100, "x", false, "t"⟩])], []⟩ :
          Document).word_tags.map Prod.fst) :=
  (delete_word_note_spec ⟨[], [], [], [], [("karma", [⟨100, "x", false, "t"⟩])], []⟩
    "karma" 100 (by decide)).2.2.1 (by decide)

/-! ## Claim C4 -/

/-- Counterexample for C4 as stated: searching word "x" with the (reachable)
language code `"a  b"` stores the auto-tag `"a  b"` verbatim — the label
fallback lower-cased only — while `add_word_tag`'s normalization would
collapse the internal whitespace to `"a b"`; so the search side effect does
not apply the same normalization as manual tagging. -/
theorem search_auto_tag_counterexample :
    getAssoc (search_page_update "x" "a  b" none empty_document).word_tags "x" []
        = ["a  b"] ∧
    normalizeTag "a  b" = "a b" ∧
    ("a  b" : String) ≠ "a b" := by
  decide

/-- Claim C4 (amended): for every search with a non-empty trimmed word, the
search appends to that word's tag list the resolved language's display label
lower-cased verbatim (no trim or whitespace collapse is applied, so for codes
outside the language table the stored tag can differ from `add_word_tag`'s
normalized form; for every label in the table lower-casing coincides with the
full normalization), using the same membership-based de-duplication as
`add_word_tag`; the side effect is independent of the dictionary lookup
result, and no field other than history and word_tags changes. -/
theorem search_auto_tag_spec (d : Document) (wraw lraw : String)
    (info : Option LookupResult) (hw : strTrim wraw ≠ "") :
    (lowerStr (lang_label (resolve_language lraw)) ∈
      getAssoc (search_page_update wraw lraw info d).word_tags (strTrim wraw) []) ∧
    (getAssoc (search_page_update wraw lraw info d).word_tags (strTrim wraw) []
      = if lowerStr (lang_label (resolve_language lraw)) ∈
            getAssoc d.word_tags (strTrim wraw) []
        then getAssoc d.word_tags (strTrim wraw) []
        else getAssoc d.word_tags (strTrim wraw) []
          ++ [lowerStr (lang_label (resolve_language lraw))]) ∧
    (∀ info₂ : Option LookupResult,
      search_page_update wraw lraw info₂ d = search_page_update wraw lraw info d) ∧
    (search_page_update wraw lraw info d).history
      = record_search (strTrim wraw) d.history ∧
    (search_page_update wraw lraw info d).favorites = d.favorites ∧
    (search_page_update wraw lraw info d).pinned = d.pinned ∧
    (search_page_update wraw lraw info d).general_notes = d.general_notes ∧
    (search_page_update wraw lraw info d).word_notes = d.word_notes ∧
    (∀ p ∈ LANGUAGE_OPTIONS, normalizeTag p.2 = lowerStr p.2) := by
  have hwt : (search_page_update wraw lraw info d).word_tags
      = if lowerStr (lang_label (resolve_language lraw)) ∈
            getAssoc d.word_tags (strTrim wraw) []
        then d.word_tags
        else setAssoc (strTrim wraw)
          (getAssoc d.word_tags (strTrim wraw) []
            ++ [lowerStr (lang_label (resolve_language lraw))]) d.word_tags := by
    simp only [search_page_update]
    rw [if_neg hw]
  have hget : getAssoc (search_page_update wraw lraw info d).word_tags (strTrim wraw) []
      = if lowerStr (lang_label (resolve_language lraw)) ∈
            getAssoc d.word_tags (strTrim wraw) []
        then getAssoc d.word_tags (strTrim wraw) []
        else getAssoc d.word_tags (strTrim wraw) []
          ++ [lowerStr (lang_label (resolve_language lraw))] := by
    rw [hwt]
    by_cases hmem : lowerStr (lang_label (resolve_language lraw)) ∈
        getAssoc d.word_tags (strTrim wraw) []
    · rw [if_pos hmem, if_pos hmem]
    · rw [if_neg hmem, if_neg hmem, getAssoc_setAssoc_self]
  refine ⟨?_, hget, fun _ => rfl, ?_, ?_, ?_, ?_, ?_, by decide⟩
  · rw [hget]
    by_cases hmem : lowerStr (lang_label (resolve_language lraw)) ∈
        getAssoc d.word_tags (strTrim wraw) []
    · rwa [if_pos hmem]
    · rw [if_neg hmem]
      exact List.mem_append_right _ (List.mem_singleton_self _)
  all_goals
    simp only [search_page_update]
    rw [if_neg hw]

/-- Witness for C4 at a concrete input. -/
theorem search_auto_tag_spec_witness :
    lowerStr (lang_label (resolve_language "hi")) ∈
      getAssoc (search_page_update " karma " "hi" none empty_document).word_tags
        (strTrim " karma ") [] :=
  (search_auto_tag_spec empty_document " karma " "hi" none (by decide)).1

/-! ## Claim C8 -/

/-- Claim C8: `search_all` yields the distinct "no results computed" state
(`none`) exactly when the trimmed query is empty; for every non-empty query
it yields all four result groups, matched case-insensitively by substring:
known words, general notes, word notes paired with their word, and tags
paired with their word — so a query matching nothing yields four
present-but-empty groups. -/
theorem search_all_spec (d : Document) (qraw : String) :
    (search_all qraw d = none ↔ strTrim qraw = "") ∧
    (∀ r, search_all qraw d = some r →
      (∀ w, w ∈ r.words ↔
        ((w ∈ d.history ∨ w ∈ d.favorites ∨ w ∈ d.pinned ∨
            w ∈ d.word_notes.map Prod.fst ∨ w ∈ d.word_tags.map Prod.fst) ∧
          strContains (lowerStr w) (lowerStr (strTrim qraw)) = true)) ∧
      (∀ n, n ∈ r.general_notes ↔
        (n ∈ d.general_notes ∧
          strContains (lowerStr n.text) (lowerStr (strTrim qraw)) = true)) ∧
      (∀ w n, (w, n) ∈ r.word_notes ↔
        (∃ notes, (w, notes) ∈ d.word_notes ∧ n ∈ notes ∧
          strContains (lowerStr n.text) (lowerStr (strTrim qraw)) = true)) ∧
      (∀ w t, (w, t) ∈ r.tags ↔
        (∃ tags, (w, tags) ∈ d.word_tags ∧ t ∈ tags ∧
          strContains (lowerStr t) (lowerStr (strTrim qraw)) = true))) := by
  by_cases hq : strTrim qraw = ""
  · have hnone : search_all qraw d = none := by
      simp only [search_all]
      rw [if_pos hq]
    refine ⟨⟨fun _ => hq, fun _ => hnone⟩, fun r hr => ?_⟩
    rw [hnone] at hr
    exact absurd hr (Option.noConfusion)
  · have hsome : search_all qraw d = some
        ⟨sortStrings ((List.dedup (d.history ++ d.favorites ++ d.pinned ++
            d.word_notes.map Prod.fst ++ d.word_tags.map Prod.fst)).filter
              (fun w => strContains (lowerStr w) (lowerStr (strTrim qraw)))),
          d.general_notes.filter
            (fun n => strContains (lowerStr n.text) (lowerStr (strTrim qraw))),
          d.word_notes.flatMap (fun p =>
            (p.2.filter (fun n => strContains (lowerStr n.text)
              (lowerStr (strTrim qraw)))).map (fun n => (p.1, n))),
          d.word_tags.flatMap (fun p =>
            (p.2.filter (fun t => strContains (lowerStr t)
              (lowerStr (strTrim qraw)))).map (fun t => (p.1, t)))⟩ := by
      simp only [search_all]
      rw [if_neg hq]
    refine ⟨⟨fun h => absurd (hsome ▸ h) (Option.noConfusion), fun h => absurd h hq⟩,
      fun r hr => ?_⟩
    rw [hsome] at hr
    injection hr with hr
    subst hr
    refine ⟨?_, ?_, ?_, ?_⟩
    · intro w
      simp only [mem_sortStrings, List.mem_filter, List.mem_dedup, List.mem_append]
      tauto
    · intro n
      simp only [List.mem_filter]
    · intro w n
      constructor
      · intro hmem
        rcases List.mem_flatMap.mp hmem with ⟨p, hp, hin⟩
        rcases List.mem_map.mp hin with ⟨n', hn', heq⟩
        rcases List.mem_filter.mp hn' with ⟨hn'mem, hpred⟩
        cases heq
        refine ⟨p.2, ?_, hn'mem, hpred⟩
        rw [Prod.mk.eta]
        exact hp
      · rintro ⟨notes, hmem, hn, hpred⟩
        exact List.mem_flatMap.mpr ⟨(w, notes), hmem,
          List.mem_map.mpr ⟨n, List.mem_filter.mpr ⟨hn, hpred⟩, rfl⟩⟩
    · intro w t
      constructor
      · intro hmem
        rcases List.mem_flatMap.mp hmem with ⟨p, hp, hin⟩
        rcases List.mem_map.mp hin with ⟨t', ht', heq⟩
        rcases List.mem_filter.mp ht' with ⟨ht'mem, hpred⟩
        cases heq
        refine ⟨p.2, ?_, ht'mem, hpred⟩
        rw [Prod.mk.eta]
        exact hp
      · rintro ⟨tags, hmem, ht, hpred⟩
        exact List.mem_flatMap.mpr ⟨(w, tags), hmem,
          List.mem_map.mpr ⟨t, List.mem_filter.mpr ⟨ht, hpred⟩, rfl⟩⟩

/-- Witness for C8 at concrete inputs: a blank query computes no results. -/
theorem search_all_spec_witness :
    search_all "   " empty_document = none :=
  (search_all_spec empty_document "   ").1.mpr (by decide)

/-! ## Claim C9 -/

/-- Claim C9: the text export emits its sections in the fixed order
favourites, pinned, history, general notes (each marked when important),
word notes (grouped by word, each marked when important), word tags
(grouped by word), and a word whose tag list is empty contributes no line to
the word-tags section. -/
theorem export_text_sections (d : Document) :
    export_text d
      = export_header ++ favourites_section d ++ [""] ++ pinned_section d
        ++ [""] ++ history_section d ++ [""] ++ general_notes_section d
        ++ [""] ++ word_notes_section d ++ [""] ++ word_tags_section d ∧
    word_tags_section d
      = "WORD TAGS:" :: (d.word_tags.filter (fun p => !p.2.isEmpty)).map
          (fun p => "  " ++ p.1 ++ ": " ++ joinComma p.2) ∧
    general_notes_section d
      = "GENERAL NOTES:" :: d.general_notes.map
          (fun n => "  - " ++ (if n.important then "[IMPORTANT] " else "") ++ n.text) ∧
    word_notes_section d
      = "WORD NOTES:" :: d.word_notes.flatMap
          (fun p => ("  " ++ p.1 ++ ":") :: p.2.map
            (fun n => "    - " ++ (if n.important then "[IMPORTANT] " else "")
              ++ n.text)) := by
  have hfm : ∀ l : List (String × List String),
      l.filterMap word_tag_line
        = (l.filter (fun p => !p.2.isEmpty)).map
            (fun p => "  " ++ p.1 ++ ": " ++ joinComma p.2) := by
    intro l
    induction l with
    | nil => rfl
    | cons p rest ih =>
      by_cases hp : p.2.isEmpty
      · simp [List.filterMap_cons, List.filter_cons, word_tag_line, hp, ih]
      · simp [List.filterMap_cons, List.filter_cons, word_tag_line, hp, ih]
  refine ⟨?_, ?_, ?_, ?_⟩
  · simp [export_text, export_header, favourites_section, pinned_section,
      history_section, general_notes_section, word_notes_section,
      word_tags_section]
  · simp only [word_tags_section, hfm]
  · simp [general_notes_section, general_note_line]
  · simp only [word_notes_section]
    congr 1
